import Mathlib

/-! News service: edit and list handlers

A shallow embedding of `cmd/main.go`: the `News` record, the two fiber handlers
registered in `main` (`POST /edit/:Id`, `GET /list`), the Go values they hand to
`c.JSON`, and the JSON documents `encoding/json` produces from those values.

The reform database handle `db` is a library object; the handlers are embedded over
an explicit store interface (`StoreOps`) with the store state threaded through.
-/

namespace NewsService

/-! ## Data model -/

/-- The struct `News` (main.go, lines 17-21). `ID` is an `int64`; no arithmetic is
ever done on it, so it is an `Int`. -/
structure News where
  ID : Int
  Title : String
  Content : String
deriving DecidableEq, Repr

/-- A Go `error` value: `none` is `nil`, `some msg` an error with its text. -/
abbrev GoError := Option String

/-- A Go slice: `none` is the nil slice (what `var s []T` declares), `some l` an
allocated slice with elements `l`. -/
abbrev GoSlice (α : Type) := Option (List α)

/-- Go `append(s, x)`: appending to the nil slice allocates. -/
def GoSlice.append {α : Type} (s : GoSlice α) (x : α) : GoSlice α :=
  match s with
  | none => some [x]
  | some l => some (l ++ [x])

/-- Go `len(s)`: zero for the nil slice. -/
def GoSlice.len {α : Type} (s : GoSlice α) : Nat :=
  match s with
  | none => 0
  | some l => l.length

/-- Go `s[i]`, as an option (out of range gives `none`). -/
def GoSlice.index {α : Type} (s : GoSlice α) (i : Nat) : Option α :=
  match s with
  | none => none
  | some l => l[i]?

/-- The scalar dynamic values the handlers store in a `fiber.Map`. -/
inductive Scalar where
  | int64 (i : Int)
  | string (s : String)
  | bool (b : Bool)
deriving DecidableEq, Repr

/-- A `fiber.Map` whose values are scalars, as the list of its entries in the
order the map literal writes them (the element type of `formattedNews`). -/
abbrev ScalarMap := List (String × Scalar)

/-- The dynamic values stored in a top-level `fiber.Map`. -/
inductive Value where
  | scalar (v : Scalar)
  | maps (s : GoSlice ScalarMap)
deriving DecidableEq, Repr

/-- A top-level `fiber.Map` (`map[string]interface{}`), entries in literal order. -/
abbrev Map := List (String × Value)

/-- What a handler passes to `c.JSON`: a `fiber.Map` or the `*News` record. -/
inductive Body where
  | map (m : Map)
  | record (r : News)
deriving DecidableEq, Repr

/-- The HTTP response a handler produces: `c.Status(status).JSON(body)`. -/
structure Response where
  status : Nat
  body : Body
deriving DecidableEq, Repr

/-- The constant `fiber.StatusOK`. -/
def StatusOK : Nat := 200
/-- The constant `fiber.StatusBadRequest`. -/
def StatusBadRequest : Nat := 400
/-- The constant `fiber.StatusNotFound`. -/
def StatusNotFound : Nat := 404
/-- The constant `fiber.StatusInternalServerError`. -/
def StatusInternalServerError : Nat := 500

/-! ## JSON encoding of the response bodies -/

/-- JSON documents. An object is the list of its members in the order written. -/
inductive Json where
  | null
  | bool (b : Bool)
  | num (n : Int)
  | str (s : String)
  | arr (xs : List Json)
  | obj (kvs : List (String × Json))

/-- The member names of a JSON object, in order; `[]` for any other document. -/
def Json.keys : Json → List String
  | .obj kvs => kvs.map Prod.fst
  | _ => []

/-- The value of member `k` of a JSON object. -/
def Json.member (k : String) : Json → Option Json
  | .obj kvs => (kvs.find? (fun kv => kv.1 == k)).map Prod.snd
  | _ => none

/-- Insert an entry into a key-sorted entry list (`encoding/json` writes the
entries of a map sorted by key; Go orders strings bytewise, which on UTF-8 text is
the lexicographic order of the code points). -/
def insertByKey {α : Type} (kv : String × α) : List (String × α) → List (String × α)
  | [] => [kv]
  | x :: xs => if kv.1.data < x.1.data then kv :: x :: xs else x :: insertByKey kv xs

/-- Sort the entries of a map by key. -/
def sortByKey {α : Type} (m : List (String × α)) : List (String × α) :=
  m.foldr insertByKey []

/-- Encoding of a scalar dynamic value. -/
def marshalScalar : Scalar → Json
  | .int64 i => .num i
  | .string s => .str s
  | .bool b => .bool b

/-- Encoding of a scalar-valued `fiber.Map`: an object, members sorted by key. -/
def marshalScalarMap (m : ScalarMap) : Json :=
  .obj (sortByKey (m.map (fun kv => (kv.1, marshalScalar kv.2))))

/-- Encoding of a `[]fiber.Map`: the nil slice encodes as `null`, an allocated
slice as an array. -/
def marshalSlice : GoSlice ScalarMap → Json
  | none => .null
  | some l => .arr (l.map marshalScalarMap)

/-- Encoding of a dynamic value. -/
def marshalValue : Value → Json
  | .scalar v => marshalScalar v
  | .maps s => marshalSlice s

/-- Encoding of a top-level `fiber.Map`. -/
def marshalMap (m : Map) : Json :=
  .obj (sortByKey (m.map (fun kv => (kv.1, marshalValue kv.2))))

/-- Encoding of the struct `News`: it declares no `json` tags (only `reform` ones),
so each member is named by the Go field name, in declaration order. -/
def marshalNews (n : News) : Json :=
  .obj [("ID", .num n.ID), ("Title", .str n.Title), ("Content", .str n.Content)]

/-- The JSON document written by `c.JSON(body)`. -/
def marshalBody : Body → Json
  | .map m => marshalMap m
  | .record r => marshalNews r

/-- The JSON document a response carries. -/
def Response.json (r : Response) : Json := marshalBody r.body

/-! ## Collaborators: request context and store -/

/-- The part of `*fiber.Ctx` the handlers read. `BodyParser` is the outcome of
`c.BodyParser(news)` on the zero-valued `new(News)`: an error, or the decoded
struct (fields absent from the body keep the zero value). `ToInt64` stands for
`utils.ToInt64`. -/
structure Ctx where
  Params : String → String
  BodyParser : Except String News
  ToInt64 : String → Int

/-- The three methods of the reform handle `db` the handlers call, over a store
state `σ`. A method returns its Go results together with the store state after the
call. -/
structure StoreOps (σ : Type) where
  FindByPrimaryKeyFrom : σ → Int → (Option News × GoError) × σ
  Save : σ → News → GoError × σ
  SelectAllFrom : σ → (List News × GoError) × σ

/-! ## The handlers -/

/-- The body of every 4xx/5xx response: `fiber.Map{"error": msg}`. -/
def errorMap (msg : String) : Body :=
  .map [("error", .scalar (.string msg))]

/-- The merge step of the edit handler (main.go, lines 84-90): two independent
conditional assignments on the record found in the store. -/
def mergeNews (existingNews news : News) : News :=
  let e1 := if news.Title ≠ "" then { existingNews with Title := news.Title } else existingNews
  let e2 := if news.Content ≠ "" then { e1 with Content := news.Content } else e1
  e2

/-- The identifier of the request (main.go, line 68):
`utils.ToInt64(c.Params("Id"))`. -/
def requestId (c : Ctx) : Int := c.ToInt64 (c.Params "Id")

/-- The `POST /edit/:Id` handler (main.go, lines 67-98). -/
def editHandler {σ : Type} (ops : StoreOps σ) (c : Ctx) (db : σ) : Response × σ :=
  let id := requestId c
  match c.BodyParser with
  | .error _ => (⟨StatusBadRequest, errorMap "Invalid JSON"⟩, db)
  | .ok news =>
    match ops.FindByPrimaryKeyFrom db id with
    | ((existingNews, err), db1) =>
      if err ≠ none then
        (⟨StatusInternalServerError, errorMap "Internal Server Error"⟩, db1)
      else
        match existingNews with
        | none => (⟨StatusNotFound, errorMap "News not found"⟩, db1)
        | some existing =>
          let merged := mergeNews existing news
          match ops.Save db1 merged with
          | (err2, db2) =>
            if err2 ≠ none then
              (⟨StatusInternalServerError, errorMap "Internal Server Error"⟩, db2)
            else
              (⟨StatusOK, .record merged⟩, db2)

/-- The map built for one record in the list handler (main.go, lines 110-114). -/
def newsMap (news : News) : ScalarMap :=
  [("Id", .int64 news.ID), ("Title", .string news.Title), ("Content", .string news.Content)]

/-- The loop of the list handler (main.go, lines 108-116): `formattedNews` starts as
the nil slice and gets one map appended per record. -/
def formatNews (newsList : List News) : GoSlice ScalarMap :=
  newsList.foldl (fun formattedNews news => formattedNews.append (newsMap news)) none

/-- The `GET /list` handler (main.go, lines 101-119). -/
def listHandler {σ : Type} (ops : StoreOps σ) (db : σ) : Response × σ :=
  match ops.SelectAllFrom db with
  | ((newsList, err), db1) =>
    if err ≠ none then
      (⟨StatusInternalServerError, errorMap "Internal Server Error"⟩, db1)
    else
      (⟨StatusOK, .map [("Success", .scalar (.bool true)),
                        ("News", .maps (formatNews newsList))]⟩, db1)

/-! ## Record store -/

/-- One method call on the store handle, with its argument. -/
inductive StoreCall where
  | find (id : Int)
  | save (r : News)
  | selectAll
deriving DecidableEq, Repr

/-- Modelled from the spec: the state of the Record Store (section 4.3), which in the
program is the MySQL table behind the reform handle and is not part of the sources.
`rows` are the stored records; `calls` logs the methods invoked on the handle, oldest
first. -/
structure Db where
  rows : List News
  calls : List StoreCall
deriving DecidableEq, Repr

/-- Modelled from the spec: the storage failures of section 4.3 (`StorageError` on an
underlying I/O failure), one possible error per method; `none` lets the method
succeed. -/
structure Faults where
  find : GoError
  save : GoError
  selectAll : GoError

/-- Modelled from the spec: the row stored under `id` (the key of `get(id)`,
section 4.3), if there is one. -/
def lookupRow (rows : List News) (id : Int) : Option News :=
  rows.find? (fun r => r.ID == id)

/-- Modelled from the spec: `upsert(record)` of section 4.3, which overwrites the
record matching `id` entirely (and stores the record when none matches). -/
def upsertRow (r : News) : List News → List News
  | [] => [r]
  | x :: xs => if x.ID = r.ID then r :: xs else x :: upsertRow r xs

/-- The error `reform.ErrNoRows` (it is `sql.ErrNoRows`), by its text. -/
def ErrNoRows : String := "sql: no rows in result set"

/-- Modelled from the spec: the Record Store contract of section 4.3 as the three
reform methods the handlers call. A failing method returns its error and leaves the
rows as they were. The not-found signal of `get(id)` is the one of the method the
handler calls: `FindByPrimaryKeyFrom` answers a query without rows with a nil record
and the error `ErrNoRows`, never with a nil record and a nil error. -/
def specStore (f : Faults) : StoreOps Db where
  FindByPrimaryKeyFrom db id :=
    let db1 : Db := { db with calls := db.calls ++ [StoreCall.find id] }
    match f.find with
    | some e => ((none, some e), db1)
    | none =>
      match lookupRow db.rows id with
      | some r => ((some r, none), db1)
      | none => ((none, some ErrNoRows), db1)
  Save db r :=
    let db1 : Db := { db with calls := db.calls ++ [StoreCall.save r] }
    match f.save with
    | some e => (some e, db1)
    | none => (none, { db1 with rows := upsertRow r db.rows })
  SelectAllFrom db :=
    let db1 : Db := { db with calls := db.calls ++ [StoreCall.selectAll] }
    match f.selectAll with
    | some e => (([], some e), db1)
    | none => ((db.rows, none), db1)

/-- A store on which no method fails. -/
def noFaults : Faults := ⟨none, none, none⟩

/-- A request context with path parameter `Id` equal to `idParam` and the given
outcome of decoding the body; `ToInt64` reads an unsigned decimal integer. -/
def sampleCtx (idParam : String) (body : Except String News) : Ctx where
  Params := fun k => if k = "Id" then idParam else ""
  BodyParser := body
  ToInt64 := fun s => Int.ofNat (s.data.foldl (fun n ch => 10 * n + (ch.toNat - 48)) 0)

/-! ## Auxiliary facts -/

/-- The merge step leaves the identifier alone. -/
theorem mergeNews_ID (R P : News) : (mergeNews R P).ID = R.ID := by
  unfold mergeNews
  by_cases h1 : P.Title = "" <;> by_cases h2 : P.Content = "" <;> simp [h1, h2]

/-- The title after the merge step. -/
theorem mergeNews_Title (R P : News) :
    (mergeNews R P).Title = if P.Title = "" then R.Title else P.Title := by
  unfold mergeNews
  by_cases h1 : P.Title = "" <;> by_cases h2 : P.Content = "" <;> simp [h1, h2]

/-- The content after the merge step. -/
theorem mergeNews_Content (R P : News) :
    (mergeNews R P).Content = if P.Content = "" then R.Content else P.Content := by
  unfold mergeNews
  by_cases h1 : P.Title = "" <;> by_cases h2 : P.Content = "" <;> simp [h1, h2]

/-- The edit handler on a decodable body, written with projections of the store
results instead of pattern matching. -/
theorem editHandler_ok {σ : Type} (ops : StoreOps σ) (c : Ctx) (db : σ) (P : News)
    (hdec : c.BodyParser = .ok P) :
    editHandler ops c db =
      (if (ops.FindByPrimaryKeyFrom db (requestId c)).1.2 ≠ none then
        (⟨StatusInternalServerError, errorMap "Internal Server Error"⟩,
          (ops.FindByPrimaryKeyFrom db (requestId c)).2)
      else
        match (ops.FindByPrimaryKeyFrom db (requestId c)).1.1 with
        | none => (⟨StatusNotFound, errorMap "News not found"⟩,
            (ops.FindByPrimaryKeyFrom db (requestId c)).2)
        | some R =>
          if (ops.Save (ops.FindByPrimaryKeyFrom db (requestId c)).2
                (mergeNews R P)).1 ≠ none then
            (⟨StatusInternalServerError, errorMap "Internal Server Error"⟩,
              (ops.Save (ops.FindByPrimaryKeyFrom db (requestId c)).2
                (mergeNews R P)).2)
          else
            (⟨StatusOK, .record (mergeNews R P)⟩,
              (ops.Save (ops.FindByPrimaryKeyFrom db (requestId c)).2
                (mergeNews R P)).2)) := by
  unfold editHandler
  rw [hdec]

/-- The edit handler on an undecodable body. -/
theorem editHandler_error {σ : Type} (ops : StoreOps σ) (c : Ctx) (db : σ) (e : String)
    (hdec : c.BodyParser = .error e) :
    editHandler ops c db = (⟨StatusBadRequest, errorMap "Invalid JSON"⟩, db) := by
  unfold editHandler
  rw [hdec]

/-- The list handler, written with projections of the store result. -/
theorem listHandler_eq {σ : Type} (ops : StoreOps σ) (db : σ) :
    listHandler ops db =
      (if (ops.SelectAllFrom db).1.2 ≠ none then
        (⟨StatusInternalServerError, errorMap "Internal Server Error"⟩,
          (ops.SelectAllFrom db).2)
      else
        (⟨StatusOK, .map [("Success", .scalar (.bool true)),
            ("News", .maps (formatNews (ops.SelectAllFrom db).1.1))]⟩,
          (ops.SelectAllFrom db).2)) := by
  unfold listHandler
  rcases hf : ops.SelectAllFrom db with ⟨⟨l, err⟩, db1⟩
  simp

/-- The loop of the list handler started from an allocated slice. -/
theorem foldl_append_some (rs : List News) (acc : List ScalarMap) :
    rs.foldl (fun formattedNews news => GoSlice.append formattedNews (newsMap news)) (some acc)
      = some (acc ++ rs.map newsMap) := by
  induction rs generalizing acc with
  | nil => simp
  | cons r rs ih =>
    have step : GoSlice.append (some acc) (newsMap r) = some (acc ++ [newsMap r]) := rfl
    rw [List.foldl_cons, step, ih]
    simp

/-- The slice the list handler builds: nil for no records, otherwise one map per
record, in order. -/
theorem formatNews_eq (rs : List News) :
    formatNews rs = if rs = [] then none else some (rs.map newsMap) := by
  cases rs with
  | nil => rfl
  | cons r rs =>
    have step : GoSlice.append (none : GoSlice ScalarMap) (newsMap r) = some [newsMap r] := rfl
    unfold formatNews
    rw [List.foldl_cons, step, foldl_append_some]
    simp

/-- A record found under `id` carries that identifier. -/
theorem lookupRow_ID (rows : List News) (id : Int) (R : News)
    (h : lookupRow rows id = some R) : R.ID = id := by
  have := List.find?_some h
  simpa using this

/-- Lookups after an upsert: the upserted record under its own identifier, every
other identifier as before. -/
theorem lookupRow_upsertRow (r : News) (rows : List News) (j : Int) :
    lookupRow (upsertRow r rows) j = if j = r.ID then some r else lookupRow rows j := by
  induction rows with
  | nil =>
    by_cases h : j = r.ID
    · simp [upsertRow, lookupRow, h]
    · have h2 : ¬ r.ID = j := fun e => h e.symm
      simp [upsertRow, lookupRow, h, h2]
  | cons x xs ih =>
    unfold lookupRow at ih
    by_cases hx : x.ID = r.ID
    · by_cases h : j = r.ID
      · simp [upsertRow, lookupRow, hx, h]
      · have h2 : ¬ r.ID = j := fun e => h e.symm
        simp [upsertRow, lookupRow, hx, h, h2]
    · by_cases h : j = r.ID
      · subst h
        rw [if_pos rfl] at ih
        simp [upsertRow, lookupRow, hx, ih]
      · by_cases h4 : x.ID = j
        · simp [upsertRow, lookupRow, hx, h4, h]
        · simp [upsertRow, lookupRow, hx, h4, ih, h]

/-! ## The merge step -/

/-- Claim C1. Merge rule of the edit handler: for every stored record `R` and every
decoded payload `P`, the merged title is `P.Title` when that is non-empty and
`R.Title` when it is empty, and the merged content is `P.Content` when that is
non-empty and `R.Content` when it is empty; neither field looks at the other. -/
theorem merge_rule (R P : News) :
    (mergeNews R P).Title = (if P.Title = "" then R.Title else P.Title) ∧
    (mergeNews R P).Content = (if P.Content = "" then R.Content else P.Content) :=
  ⟨mergeNews_Title R P, mergeNews_Content R P⟩

/-- Claim C5. No-op update: a payload whose title and content are both empty (a
field absent from the body decodes to the empty string) leaves the record as it
was, in all three fields. -/
theorem merge_noop (R P : News) (hT : P.Title = "") (hC : P.Content = "") :
    mergeNews R P = R := by
  simp [mergeNews, hT, hC]

/-- The no-op update at a concrete input: the empty payload against a stored record. -/
theorem merge_noop_witness :
    mergeNews ⟨1, "Old", "Body"⟩ ⟨0, "", ""⟩ = ⟨1, "Old", "Body"⟩ :=
  merge_noop ⟨1, "Old", "Body"⟩ ⟨0, "", ""⟩ rfl rfl

/-- Claim C4. The edit never changes the identifier: when the body decodes to `P`
(with any `P.ID`) and the lookup returns the record `R`, the record handed to
`Save` and, on success, returned with status 200 is `mergeNews R P`, whose `ID`
is `R.ID`. -/
theorem edit_keeps_id {σ : Type} (ops : StoreOps σ) (c : Ctx) (db : σ) (P R : News)
    (hdec : c.BodyParser = .ok P)
    (hfind : (ops.FindByPrimaryKeyFrom db (requestId c)).1 = (some R, none)) :
    (mergeNews R P).ID = R.ID ∧
    editHandler ops c db =
      (if (ops.Save (ops.FindByPrimaryKeyFrom db (requestId c)).2 (mergeNews R P)).1 ≠ none
        then ⟨500, .map [("error", .scalar (.string "Internal Server Error"))]⟩
        else ⟨200, .record (mergeNews R P)⟩,
       (ops.Save (ops.FindByPrimaryKeyFrom db (requestId c)).2 (mergeNews R P)).2) := by
  refine ⟨mergeNews_ID R P, ?_⟩
  have h1 : (ops.FindByPrimaryKeyFrom db (requestId c)).1.1 = some R := by rw [hfind]
  have h2 : (ops.FindByPrimaryKeyFrom db (requestId c)).1.2 = none := by rw [hfind]
  rw [editHandler_ok ops c db P hdec]
  simp only [h1, h2]
  by_cases hs : (ops.Save (ops.FindByPrimaryKeyFrom db (requestId c)).2 (mergeNews R P)).1 = none
  · simp [hs, StatusOK]
  · simp [hs, StatusInternalServerError, errorMap]

/-- The identifier at a concrete input: the payload carries identifier 99, the
stored record identifier 1; the record saved and returned keeps identifier 1. -/
theorem edit_keeps_id_witness :
    (mergeNews ⟨1, "Old", "Body"⟩ ⟨99, "New", ""⟩).ID = 1 ∧
    editHandler (specStore noFaults) (sampleCtx "1" (.ok ⟨99, "New", ""⟩))
        ⟨[⟨1, "Old", "Body"⟩], []⟩ =
      (⟨200, .record ⟨1, "New", "Body"⟩⟩,
       ⟨[⟨1, "New", "Body"⟩], [.find 1, .save ⟨1, "New", "Body"⟩]⟩) :=
  edit_keeps_id (specStore noFaults) (sampleCtx "1" (.ok ⟨99, "New", ""⟩))
    ⟨[⟨1, "Old", "Body"⟩], []⟩ ⟨99, "New", ""⟩ ⟨1, "Old", "Body"⟩ rfl rfl

/-! ## Error paths of the edit handler -/

/-- Claim C6. Invalid input: whatever the store and the identifier, when the body
cannot be decoded the edit handler answers 400 with `{"error": "Invalid JSON"}` and
returns the store state it was given; this holds for every implementation of the
store methods, so none of them is invoked. -/
theorem edit_invalid_json {σ : Type} (ops : StoreOps σ) (c : Ctx) (db : σ) (e : String)
    (hdec : c.BodyParser = .error e) :
    editHandler ops c db =
      (⟨400, .map [("error", .scalar (.string "Invalid JSON"))]⟩, db) ∧
    (editHandler ops c db).1.json = .obj [("error", .str "Invalid JSON")] := by
  have h : editHandler ops c db =
      (⟨400, .map [("error", .scalar (.string "Invalid JSON"))]⟩, db) :=
    editHandler_error ops c db e hdec
  refine ⟨h, ?_⟩
  rw [h]
  rfl

/-- Invalid input at a concrete request: an undecodable body sent to `/edit/1` while
the store holds record 1; the rows and the call log of the store are untouched. -/
theorem edit_invalid_json_witness :
    editHandler (specStore noFaults) (sampleCtx "1" (.error "unexpected end of JSON input"))
        ⟨[⟨1, "Old", "Body"⟩], []⟩ =
      (⟨400, .map [("error", .scalar (.string "Invalid JSON"))]⟩,
       ⟨[⟨1, "Old", "Body"⟩], []⟩) ∧
    (editHandler (specStore noFaults) (sampleCtx "1" (.error "unexpected end of JSON input"))
        ⟨[⟨1, "Old", "Body"⟩], []⟩).1.json = .obj [("error", .str "Invalid JSON")] :=
  edit_invalid_json (specStore noFaults) (sampleCtx "1" (.error "unexpected end of JSON input"))
    ⟨[⟨1, "Old", "Body"⟩], []⟩ "unexpected end of JSON input" rfl

/-- Claim C3, evaluated on its scenario: the store holds record 1 and a decodable
`POST /edit/2` arrives. The lookup answers the absent identifier with a nil record
and `ErrNoRows`, the error test of line 76 comes before the nil test of line 80, and
the response is 500 with `{"error": "Internal Server Error"}`, not 404 with
`{"error": "News not found"}`; the rows are unchanged and `Save` is not reached.
The same holds for every store whose lookup returns a nil record with an error. -/
theorem edit_absent_id_is_500 :
    editHandler (specStore noFaults) (sampleCtx "2" (.ok ⟨0, "New", ""⟩))
        ⟨[⟨1, "Old", "Body"⟩], []⟩ =
      (⟨500, .map [("error", .scalar (.string "Internal Server Error"))]⟩,
       ⟨[⟨1, "Old", "Body"⟩], [.find 2]⟩) ∧
    (editHandler (specStore noFaults) (sampleCtx "2" (.ok ⟨0, "New", ""⟩))
        ⟨[⟨1, "Old", "Body"⟩], []⟩).1.json = .obj [("error", .str "Internal Server Error")] ∧
    (editHandler (specStore noFaults) (sampleCtx "2" (.ok ⟨0, "New", ""⟩))
        ⟨[⟨1, "Old", "Body"⟩], []⟩).1.status ≠ 404 ∧
    (editHandler (specStore noFaults) (sampleCtx "2" (.ok ⟨0, "New", ""⟩))
        ⟨[⟨1, "Old", "Body"⟩], []⟩).1.json ≠ .obj [("error", .str "News not found")] ∧
    (∀ (σ : Type) (ops : StoreOps σ) (c : Ctx) (db : σ) (P : News) (e : String),
      c.BodyParser = .ok P →
      (ops.FindByPrimaryKeyFrom db (requestId c)).1 = (none, some e) →
      editHandler ops c db =
        (⟨500, .map [("error", .scalar (.string "Internal Server Error"))]⟩,
         (ops.FindByPrimaryKeyFrom db (requestId c)).2)) := by
  refine ⟨rfl, rfl, by decide, ?_, ?_⟩
  · intro h
    have hj : (editHandler (specStore noFaults) (sampleCtx "2" (.ok ⟨0, "New", ""⟩))
        ⟨[⟨1, "Old", "Body"⟩], []⟩).1.json = .obj [("error", .str "Internal Server Error")] :=
      rfl
    rw [hj] at h
    have hs : ("Internal Server Error" : String) = "News not found" := by
      injection h with h1
      injection h1 with h2 _
      injection h2 with _ h3
      injection h3
    exact absurd hs (by decide)
  · intro σ ops c db P e hdec hfind
    have h2 : (ops.FindByPrimaryKeyFrom db (requestId c)).1.2 ≠ none := by
      rw [hfind]
      simp
    rw [editHandler_ok ops c db P hdec, if_pos h2]
    rfl

/-- Claim C7. Storage failure: on a decodable request, if the lookup returns an
error, or the lookup returns a record and `Save` returns an error, the edit handler
answers exactly 500 with `{"error": "Internal Server Error"}`, a response that does
not depend on the error (so none of its text is echoed) and is not a 200; the list
handler answers the same when `SelectAllFrom` returns an error. -/
theorem storage_failure {σ : Type} (ops : StoreOps σ) (c : Ctx) (db : σ) (P : News)
    (hdec : c.BodyParser = .ok P) :
    ((ops.FindByPrimaryKeyFrom db (requestId c)).1.2 ≠ none →
      (editHandler ops c db).1 =
        ⟨500, .map [("error", .scalar (.string "Internal Server Error"))]⟩) ∧
    (∀ R : News, (ops.FindByPrimaryKeyFrom db (requestId c)).1 = (some R, none) →
      (ops.Save (ops.FindByPrimaryKeyFrom db (requestId c)).2 (mergeNews R P)).1 ≠ none →
      (editHandler ops c db).1 =
        ⟨500, .map [("error", .scalar (.string "Internal Server Error"))]⟩) ∧
    ((ops.SelectAllFrom db).1.2 ≠ none →
      (listHandler ops db).1 =
        ⟨500, .map [("error", .scalar (.string "Internal Server Error"))]⟩) ∧
    (⟨500, .map [("error", .scalar (.string "Internal Server Error"))]⟩ : Response).json =
      .obj [("error", .str "Internal Server Error")] ∧
    (⟨500, .map [("error", .scalar (.string "Internal Server Error"))]⟩ : Response).status
      ≠ 200 := by
  refine ⟨?_, ?_, ?_, rfl, by decide⟩
  · intro herr
    rw [editHandler_ok ops c db P hdec, if_pos herr]
    rfl
  · intro R hfind hsave
    have h1 : (ops.FindByPrimaryKeyFrom db (requestId c)).1.1 = some R := by rw [hfind]
    have h2 : (ops.FindByPrimaryKeyFrom db (requestId c)).1.2 = none := by rw [hfind]
    rw [editHandler_ok ops c db P hdec]
    simp only [h1, h2]
    simp [hsave, StatusInternalServerError, errorMap]
  · intro herr
    rw [listHandler_eq, if_pos herr]
    rfl

/-- Storage failure at concrete stores: a store whose lookup fails, and a store whose
lookup works but whose `Save` and `SelectAllFrom` fail; every response is the
generic 500. -/
theorem storage_failure_witness :
    (editHandler (specStore ⟨some "dial tcp: connection refused", none, none⟩)
        (sampleCtx "1" (.ok ⟨0, "New", ""⟩)) ⟨[⟨1, "Old", "Body"⟩], []⟩).1 =
      ⟨500, .map [("error", .scalar (.string "Internal Server Error"))]⟩ ∧
    (editHandler (specStore ⟨none, some "Error 1062: Duplicate entry", some "bad connection"⟩)
        (sampleCtx "1" (.ok ⟨0, "New", ""⟩)) ⟨[⟨1, "Old", "Body"⟩], []⟩).1 =
      ⟨500, .map [("error", .scalar (.string "Internal Server Error"))]⟩ ∧
    (listHandler (specStore ⟨none, some "Error 1062: Duplicate entry", some "bad connection"⟩)
        ⟨[⟨1, "Old", "Body"⟩], []⟩).1 =
      ⟨500, .map [("error", .scalar (.string "Internal Server Error"))]⟩ :=
  ⟨(storage_failure (specStore ⟨some "dial tcp: connection refused", none, none⟩)
      (sampleCtx "1" (.ok ⟨0, "New", ""⟩)) ⟨[⟨1, "Old", "Body"⟩], []⟩ ⟨0, "New", ""⟩ rfl).1
      (by decide),
   (storage_failure (specStore ⟨none, some "Error 1062: Duplicate entry", some "bad connection"⟩)
      (sampleCtx "1" (.ok ⟨0, "New", ""⟩)) ⟨[⟨1, "Old", "Body"⟩], []⟩ ⟨0, "New", ""⟩ rfl).2.1
      ⟨1, "Old", "Body"⟩ rfl (by decide),
   (storage_failure (specStore ⟨none, some "Error 1062: Duplicate entry", some "bad connection"⟩)
      (sampleCtx "1" (.ok ⟨0, "New", ""⟩)) ⟨[⟨1, "Old", "Body"⟩], []⟩ ⟨0, "New", ""⟩ rfl).2.2.1
      (by decide)⟩

/-! ## Atomicity of the edit -/

/-- Claim C2. Atomicity of the edit: for every store, every failure pattern and
every request, exactly one of two outcomes holds. Either the response is 200 and
carries the merge of the stored record with the payload, and afterwards the store
holds that record under the requested identifier and, under every other identifier,
what it held before; or the response is 400, 404 or 500 and the rows of the store
are those from before the call. -/
theorem edit_atomic (f : Faults) (c : Ctx) (db : Db) :
    Xor'
      ((editHandler (specStore f) c db).1.status = 200 ∧
        ∃ R P : News, c.BodyParser = .ok P ∧ lookupRow db.rows (requestId c) = some R ∧
          (editHandler (specStore f) c db).1.body = .record (mergeNews R P) ∧
          ∀ j : Int, lookupRow (editHandler (specStore f) c db).2.rows j =
            if j = requestId c then some (mergeNews R P) else lookupRow db.rows j)
      (((editHandler (specStore f) c db).1.status = 400 ∨
          (editHandler (specStore f) c db).1.status = 404 ∨
          (editHandler (specStore f) c db).1.status = 500) ∧
        (editHandler (specStore f) c db).2.rows = db.rows) := by
  cases hdec : c.BodyParser with
  | error e =>
    rw [editHandler_error (specStore f) c db e hdec]
    refine Or.inr ⟨⟨Or.inl rfl, rfl⟩, fun hc => ?_⟩
    have h200 := hc.1
    simp [StatusBadRequest] at h200
  | ok P =>
    rw [editHandler_ok (specStore f) c db P hdec]
    cases hff : f.find with
    | some e =>
      simp only [specStore, hff]
      refine Or.inr ⟨⟨Or.inr (Or.inr rfl), rfl⟩, fun hc => ?_⟩
      have h200 := hc.1
      simp [StatusInternalServerError] at h200
    | none =>
      cases hl : lookupRow db.rows (requestId c) with
      | none =>
        simp only [specStore, hff, hl]
        refine Or.inr ⟨⟨Or.inr (Or.inr rfl), rfl⟩, fun hc => ?_⟩
        have h200 := hc.1
        simp [StatusInternalServerError] at h200
      | some R =>
        cases hfs : f.save with
        | some e =>
          simp only [specStore, hff, hl, hfs]
          refine Or.inr ⟨⟨Or.inr (Or.inr rfl), rfl⟩, fun hc => ?_⟩
          have h200 := hc.1
          simp [StatusInternalServerError] at h200
        | none =>
          simp only [specStore, hff, hl, hfs]
          refine Or.inl ⟨⟨rfl, R, P, rfl, rfl, rfl, ?_⟩, fun hc => ?_⟩
          · intro j
            have hid : (mergeNews R P).ID = requestId c := by
              rw [mergeNews_ID]
              exact lookupRow_ID db.rows (requestId c) R hl
            have hup := lookupRow_upsertRow (mergeNews R P) db.rows j
            rw [hid] at hup
            exact hup
          · have hst := hc.1
            simp [StatusOK] at hst

/-- The edit scenario: the store holds
`{1, "Old", "Body"}` and the body decodes to the title `"New"` alone; the response
is 200 and the store then holds `{1, "New", "Body"}`. -/
theorem edit_atomic_witness :
    editHandler (specStore noFaults) (sampleCtx "1" (.ok ⟨0, "New", ""⟩))
        ⟨[⟨1, "Old", "Body"⟩], []⟩ =
      (⟨200, .record ⟨1, "New", "Body"⟩⟩,
       ⟨[⟨1, "New", "Body"⟩], [.find 1, .save ⟨1, "New", "Body"⟩]⟩) ∧
    Xor'
      ((editHandler (specStore noFaults) (sampleCtx "1" (.ok ⟨0, "New", ""⟩))
          ⟨[⟨1, "Old", "Body"⟩], []⟩).1.status = 200 ∧
        ∃ R P : News, (sampleCtx "1" (.ok ⟨0, "New", ""⟩)).BodyParser = .ok P ∧
          lookupRow [⟨1, "Old", "Body"⟩] (requestId (sampleCtx "1" (.ok ⟨0, "New", ""⟩))) = some R ∧
          (editHandler (specStore noFaults) (sampleCtx "1" (.ok ⟨0, "New", ""⟩))
            ⟨[⟨1, "Old", "Body"⟩], []⟩).1.body = .record (mergeNews R P) ∧
          ∀ j : Int, lookupRow (editHandler (specStore noFaults)
              (sampleCtx "1" (.ok ⟨0, "New", ""⟩)) ⟨[⟨1, "Old", "Body"⟩], []⟩).2.rows j =
            if j = requestId (sampleCtx "1" (.ok ⟨0, "New", ""⟩)) then some (mergeNews R P)
            else lookupRow [⟨1, "Old", "Body"⟩] j)
      (((editHandler (specStore noFaults) (sampleCtx "1" (.ok ⟨0, "New", ""⟩))
            ⟨[⟨1, "Old", "Body"⟩], []⟩).1.status = 400 ∨
          (editHandler (specStore noFaults) (sampleCtx "1" (.ok ⟨0, "New", ""⟩))
            ⟨[⟨1, "Old", "Body"⟩], []⟩).1.status = 404 ∨
          (editHandler (specStore noFaults) (sampleCtx "1" (.ok ⟨0, "New", ""⟩))
            ⟨[⟨1, "Old", "Body"⟩], []⟩).1.status = 500) ∧
        (editHandler (specStore noFaults) (sampleCtx "1" (.ok ⟨0, "New", ""⟩))
          ⟨[⟨1, "Old", "Body"⟩], []⟩).2.rows = [⟨1, "Old", "Body"⟩]) :=
  ⟨rfl, edit_atomic noFaults (sampleCtx "1" (.ok ⟨0, "New", ""⟩)) ⟨[⟨1, "Old", "Body"⟩], []⟩⟩

/-! ## The list handler -/

/-- Claim C8. Listing projection: when `SelectAllFrom` returns the records `rs`
without error, the list handler answers 200 with `Success` true and a `News` slice
of the same length as `rs` whose i-th element is the map with `Id`, `Title` and
`Content` of the i-th record; for a non-empty `rs` the JSON document carries the
array of those objects, in the same order. -/
theorem list_projection {σ : Type} (ops : StoreOps σ) (db : σ) (rs : List News)
    (hsel : (ops.SelectAllFrom db).1 = (rs, none)) :
    ∃ news : GoSlice ScalarMap,
      (listHandler ops db).1 =
        ⟨200, .map [("Success", .scalar (.bool true)), ("News", .maps news)]⟩ ∧
      news.len = rs.length ∧
      (∀ (i : Nat) (h : i < rs.length), news.index i =
        some [("Id", .int64 rs[i].ID), ("Title", .string rs[i].Title),
              ("Content", .string rs[i].Content)]) ∧
      (rs ≠ [] → (listHandler ops db).1.json =
        .obj [("News", .arr (rs.map (fun r =>
                .obj [("Content", .str r.Content), ("Id", .num r.ID), ("Title", .str r.Title)]))),
              ("Success", .bool true)]) := by
  have h1 : (ops.SelectAllFrom db).1.1 = rs := by rw [hsel]
  have h2 : (ops.SelectAllFrom db).1.2 = none := by rw [hsel]
  have hresp : (listHandler ops db).1 =
      ⟨200, .map [("Success", .scalar (.bool true)), ("News", .maps (formatNews rs))]⟩ := by
    rw [listHandler_eq]
    simp [h1, h2, StatusOK]
  refine ⟨formatNews rs, hresp, ?_, ?_, ?_⟩
  · rw [formatNews_eq]
    cases rs with
    | nil => rfl
    | cons r rs => simp [GoSlice.len]
  · intro i h
    rw [formatNews_eq]
    have hne : rs ≠ [] := by
      intro hnil
      rw [hnil] at h
      exact Nat.not_lt_zero i h
    rw [if_neg hne]
    simp [GoSlice.index, List.getElem?_eq_getElem h, newsMap]
  · intro hne
    rw [hresp, formatNews_eq, if_neg hne]
    have hmap : List.map marshalScalarMap (List.map newsMap rs) =
        rs.map (fun r =>
          Json.obj [("Content", .str r.Content), ("Id", .num r.ID), ("Title", .str r.Title)]) := by
      rw [List.map_map]
      rfl
    rw [← hmap]
    rfl

/-- The listing scenario: the records `{1, "A", "x"}` and `{2, "B", "y"}`
give the `News` slice `[{Id: 1, Title: "A", Content: "x"}, {Id: 2, Title: "B",
Content: "y"}]`. -/
theorem list_projection_witness :
    (listHandler (specStore noFaults) ⟨[⟨1, "A", "x"⟩, ⟨2, "B", "y"⟩], []⟩).1 =
      ⟨200, .map [("Success", .scalar (.bool true)),
        ("News", .maps (some [
          [("Id", .int64 1), ("Title", .string "A"), ("Content", .string "x")],
          [("Id", .int64 2), ("Title", .string "B"), ("Content", .string "y")]]))]⟩ ∧
    ∃ news : GoSlice ScalarMap,
      (listHandler (specStore noFaults) ⟨[⟨1, "A", "x"⟩, ⟨2, "B", "y"⟩], []⟩).1 =
        ⟨200, .map [("Success", .scalar (.bool true)), ("News", .maps news)]⟩ ∧
      news.len = 2 ∧
      (∀ (i : Nat) (h : i < 2), news.index i =
        some [("Id", .int64 ([⟨1, "A", "x"⟩, ⟨2, "B", "y"⟩] : List News)[i].ID),
              ("Title", .string ([⟨1, "A", "x"⟩, ⟨2, "B", "y"⟩] : List News)[i].Title),
              ("Content", .string ([⟨1, "A", "x"⟩, ⟨2, "B", "y"⟩] : List News)[i].Content)]) ∧
      (([⟨1, "A", "x"⟩, ⟨2, "B", "y"⟩] : List News) ≠ [] →
        (listHandler (specStore noFaults) ⟨[⟨1, "A", "x"⟩, ⟨2, "B", "y"⟩], []⟩).1.json =
        .obj [("News", .arr (([⟨1, "A", "x"⟩, ⟨2, "B", "y"⟩] : List News).map (fun r =>
                .obj [("Content", .str r.Content), ("Id", .num r.ID), ("Title", .str r.Title)]))),
              ("Success", .bool true)]) :=
  ⟨rfl, list_projection (specStore noFaults) ⟨[⟨1, "A", "x"⟩, ⟨2, "B", "y"⟩], []⟩
    [⟨1, "A", "x"⟩, ⟨2, "B", "y"⟩] rfl⟩

/-- Claim C9, evaluated on the empty store: `SelectAllFrom` returns no records, the
loop never runs, `formattedNews` is still the nil slice it was declared as, and the
JSON document carries `"News": null`, which is not the empty array. -/
theorem list_empty_is_null :
    (listHandler (specStore noFaults) ⟨[], []⟩).1 =
      ⟨200, .map [("Success", .scalar (.bool true)), ("News", .maps none)]⟩ ∧
    (listHandler (specStore noFaults) ⟨[], []⟩).1.json =
      .obj [("News", .null), ("Success", .bool true)] ∧
    (listHandler (specStore noFaults) ⟨[], []⟩).1.json.member "News" = some .null ∧
    (listHandler (specStore noFaults) ⟨[], []⟩).1.json.member "News" ≠ some (.arr []) := by
  refine ⟨rfl, rfl, rfl, ?_⟩
  intro h
  have h2 : (Json.null : Json) = Json.arr [] := Option.some.inj h
  cases h2

/-! ## Shape of the successful edit response -/

/-- Claim C10, evaluated on its scenario: the saved record `{1, "New", "Body"}` is
returned with status 200 as the JSON object with members `ID`, `Title`, `Content`
(the Go field names of `News`, which has no `json` tags); `Id`, the name the list
handler gives the same field, is not a member. -/
theorem edit_response_keys :
    (editHandler (specStore noFaults) (sampleCtx "1" (.ok ⟨0, "New", ""⟩))
        ⟨[⟨1, "Old", "Body"⟩], []⟩).1 = ⟨200, .record ⟨1, "New", "Body"⟩⟩ ∧
    (editHandler (specStore noFaults) (sampleCtx "1" (.ok ⟨0, "New", ""⟩))
        ⟨[⟨1, "Old", "Body"⟩], []⟩).1.json =
      .obj [("ID", .num 1), ("Title", .str "New"), ("Content", .str "Body")] ∧
    (editHandler (specStore noFaults) (sampleCtx "1" (.ok ⟨0, "New", ""⟩))
        ⟨[⟨1, "Old", "Body"⟩], []⟩).1.json.keys = ["ID", "Title", "Content"] ∧
    "Id" ∉ (editHandler (specStore noFaults) (sampleCtx "1" (.ok ⟨0, "New", ""⟩))
        ⟨[⟨1, "Old", "Body"⟩], []⟩).1.json.keys ∧
    (marshalScalarMap (newsMap ⟨1, "New", "Body"⟩)).keys = ["Content", "Id", "Title"] := by
  refine ⟨rfl, rfl, rfl, ?_, rfl⟩
  have hk : (editHandler (specStore noFaults) (sampleCtx "1" (.ok ⟨0, "New", ""⟩))
        ⟨[⟨1, "Old", "Body"⟩], []⟩).1.json.keys = ["ID", "Title", "Content"] := rfl
  rw [hk]
  decide

end NewsService
